import Mathlib

/-
Verification development for the gaze-heatmap rendering service
(`server/api/render-web-page/index.post.ts`).

Modelling conventions:
* JavaScript numbers (doubles, and the Float32Array intensity buffer) are
  modelled as real numbers; the statements below are about the ideal
  real-valued algorithm that the source implements.
* The flat `intensityMap` buffer is indexed by `y * width + x`; inside the
  raster this indexing is a bijection with pixel coordinates `(x, y)`, so the
  buffer is modelled as a function from integer pixel coordinates to reals.
* Fallible asynchronous steps of the request handler are driven by an oracle
  that decides which awaited operation succeeds and what the captured
  screenshot is; the handler model follows the `try`/`catch` structure of the
  source line by line.
-/

namespace GazeHeatmap

/-- Fixed falloff radius of `createHeatmapOverlay` (`const radius = 30`). -/
noncomputable def radius : ℝ := 30

/-- Accumulation cap of `createHeatmapOverlay` (`const maxPointsPerPixel = 5`). -/
noncomputable def maxPointsPerPixel : ℝ := 5

/-- Gaze sample point (`{x: number, y: number}` in the request schema). -/
structure Point where
  x : ℝ
  y : ℝ

/-- Euclidean distance from point `p` to the integer pixel `(x, y)`:
`Math.sqrt(dx * dx + dy * dy)` with `dx = point.x - x`, `dy = point.y - y`. -/
noncomputable def distTo (p : Point) (x y : ℤ) : ℝ :=
  Real.sqrt ((p.x - (x : ℝ)) * (p.x - (x : ℝ)) + (p.y - (y : ℝ)) * (p.y - (y : ℝ)))

/-- Pixel range scanned by the per-point loops of `createHeatmapOverlay`:
`x0 = Math.max(0, Math.floor(point.x - radius))`,
`x1 = Math.min(width, Math.floor(point.x + radius))`, loop `x0 <= x < x1`,
and the analogous bounds for `y`. -/
def inBBox (w h : ℤ) (p : Point) (x y : ℤ) : Prop :=
  max 0 ⌊p.x - radius⌋ ≤ x ∧ x < min w ⌊p.x + radius⌋ ∧
    max 0 ⌊p.y - radius⌋ ≤ y ∧ y < min h ⌊p.y + radius⌋

noncomputable instance (w h : ℤ) (p : Point) (x y : ℤ) : Decidable (inBBox w h p x y) := by
  unfold inBBox; infer_instance

/-- Amount the scan for point `p` adds at pixel `(x, y)` before clamping:
`(1 - distance / radius) * 0.4` when the pixel is scanned and
`distance < radius`, and `0` otherwise. -/
noncomputable def contrib (w h : ℤ) (p : Point) (x y : ℤ) : ℝ :=
  if inBBox w h p x y ∧ distTo p x y < radius then
    (1 - distTo p x y / radius) * 0.4
  else 0

/-- One point's pass over the intensity map. For each scanned pixel at
distance below the radius the source executes
`intensityMap[index] = Math.min(intensityMap[index] + intensity, maxPointsPerPixel)`;
every scanned pixel is visited exactly once per point, so the pass acts
pointwise. -/
noncomputable def applyPoint (w h : ℤ) (m : ℤ → ℤ → ℝ) (p : Point) : ℤ → ℤ → ℝ :=
  fun x y =>
    if inBBox w h p x y ∧ distTo p x y < radius then
      min (m x y + (1 - distTo p x y / radius) * 0.4) maxPointsPerPixel
    else m x y

/-- The density accumulator: `points.forEach(...)` over a zero-initialised
`Float32Array(width * height)`. -/
noncomputable def accumulate (w h : ℤ) (ps : List Point) : ℤ → ℤ → ℝ :=
  ps.foldl (applyPoint w h) fun _ _ => 0

lemma radius_pos : (0 : ℝ) < radius := by norm_num [radius]

lemma distTo_nonneg (p : Point) (x y : ℤ) : 0 ≤ distTo p x y :=
  Real.sqrt_nonneg _

lemma contrib_nonneg (w h : ℤ) (p : Point) (x y : ℤ) : 0 ≤ contrib w h p x y := by
  unfold contrib
  split
  · rename_i hc
    have hd : distTo p x y / radius < 1 := by
      rw [div_lt_one radius_pos]
      exact hc.2
    nlinarith
  · exact le_refl 0

lemma contrib_le (w h : ℤ) (p : Point) (x y : ℤ) : contrib w h p x y ≤ 0.4 := by
  unfold contrib
  split
  · have hd : 0 ≤ distTo p x y / radius :=
      div_nonneg (distTo_nonneg p x y) radius_pos.le
    nlinarith
  · norm_num

lemma applyPoint_apply (w h : ℤ) (m : ℤ → ℤ → ℝ) (p : Point) (x y : ℤ)
    (hm : m x y ≤ maxPointsPerPixel) :
    applyPoint w h m p x y = min (m x y + contrib w h p x y) maxPointsPerPixel := by
  unfold applyPoint contrib
  split
  · rfl
  · rw [add_zero, min_eq_left hm]

lemma applyPoint_le (w h : ℤ) (m : ℤ → ℤ → ℝ) (p : Point) (x y : ℤ)
    (hm : m x y ≤ maxPointsPerPixel) :
    applyPoint w h m p x y ≤ maxPointsPerPixel := by
  rw [applyPoint_apply w h m p x y hm]
  exact min_le_right _ _

lemma min_add_clamp (b s M : ℝ) (hs : 0 ≤ s) :
    min (min b M + s) M = min (b + s) M := by
  rcases le_total b M with hbM | hbM
  · rw [min_eq_left hbM]
  · rw [min_eq_right hbM, min_eq_right (by linarith), min_eq_right (by linarith)]

lemma foldl_applyPoint (w h : ℤ) (x y : ℤ) :
    ∀ (ps : List Point) (m : ℤ → ℤ → ℝ), m x y ≤ maxPointsPerPixel →
      (ps.foldl (applyPoint w h) m) x y
        = min (m x y + (ps.map fun p => contrib w h p x y).sum) maxPointsPerPixel
  | [], m, hm => by
    simp [min_eq_left hm]
  | p :: ps, m, hm => by
    rw [List.foldl_cons,
      foldl_applyPoint w h x y ps (applyPoint w h m p) (applyPoint_le w h m p x y hm),
      applyPoint_apply w h m p x y hm]
    simp only [List.map_cons, List.sum_cons]
    have hsum : 0 ≤ (ps.map fun q => contrib w h q x y).sum :=
      List.sum_nonneg (by
        intro r hr
        obtain ⟨q, _, rfl⟩ := List.mem_map.mp hr
        exact contrib_nonneg w h q x y)
    rw [min_add_clamp _ _ _ hsum, add_assoc]

/-- Closed form of the accumulator at one pixel: the clamped sum of the
per-point contributions. -/
lemma accumulate_eq_min_sum (w h : ℤ) (ps : List Point) (x y : ℤ) :
    accumulate w h ps x y
      = min ((ps.map fun p => contrib w h p x y).sum) maxPointsPerPixel := by
  unfold accumulate
  rw [foldl_applyPoint w h x y ps (fun _ _ => 0) (by norm_num [maxPointsPerPixel])]
  norm_num

lemma accumulate_single (w h : ℤ) (p : Point) (x y : ℤ) :
    accumulate w h [p] x y = contrib w h p x y := by
  rw [accumulate_eq_min_sum]
  simp only [List.map_cons, List.map_nil, List.sum_cons, List.sum_nil, add_zero]
  exact min_eq_left ((contrib_le w h p x y).trans (by norm_num [maxPointsPerPixel]))

/-- Helper for evaluating concrete distances: the square root of an explicit
product. -/
lemma sqrt_eval {a r : ℝ} (hr : 0 ≤ r) (h : a = r * r) : Real.sqrt a = r := by
  rw [h, Real.sqrt_mul_self hr]

/-- C2: for every finite point list, raster dimensions and pixel, the
accumulated intensity is between 0 and 5.0. Intermediate states of a run are
`accumulate w h (ps.take k)`, so instantiating `ps` with each prefix also
bounds the value after every individual point update. -/
theorem C2_intensity_bounds (w h : ℤ) (ps : List Point) (x y : ℤ) :
    0 ≤ accumulate w h ps x y ∧ accumulate w h ps x y ≤ 5 := by
  rw [accumulate_eq_min_sum]
  constructor
  · refine le_min ?_ (by norm_num [maxPointsPerPixel])
    exact List.sum_nonneg (by
      intro r hr
      obtain ⟨q, _, rfl⟩ := List.mem_map.mp hr
      exact contrib_nonneg w h q x y)
  · exact (min_le_right _ _).trans (by norm_num [maxPointsPerPixel])

/-- Bounding box exactly as claim C1 words it (for comparison with the
source's `inBBox`): the axis-aligned box
`[p.x - 30, p.x + 30] x [p.y - 30, p.y + 30]` clipped to `[0,w) x [0,h)`. -/
def specInBox (w h : ℤ) (p : Point) (x y : ℤ) : Prop :=
  0 ≤ x ∧ x < w ∧ 0 ≤ y ∧ y < h ∧
    p.x - radius ≤ (x : ℝ) ∧ (x : ℝ) ≤ p.x + radius ∧
    p.y - radius ≤ (y : ℝ) ∧ (y : ℝ) ≤ p.y + radius

noncomputable instance (w h : ℤ) (p : Point) (x y : ℤ) : Decidable (specInBox w h p x y) := by
  unfold specInBox; infer_instance

/-- One point's pass as claim C1 words it, differing from the source's
`applyPoint` only in the scanned pixel range. -/
noncomputable def specApplyPoint (w h : ℤ) (m : ℤ → ℤ → ℝ) (p : Point) : ℤ → ℤ → ℝ :=
  fun x y =>
    if specInBox w h p x y ∧ distTo p x y < radius then
      min (m x y + (1 - distTo p x y / radius) * 0.4) maxPointsPerPixel
    else m x y

/-- The density accumulator as claim C1 words it. -/
noncomputable def specAccumulate (w h : ℤ) (ps : List Point) : ℤ → ℤ → ℝ :=
  ps.foldl (specApplyPoint w h) fun _ _ => 0

/-- C1 fails as stated: for the point `(30.5, 0)` on a 61x1 raster, the
claim's box `[0.5, 60.5] x [-30, 30]` clipped to the raster contains the
pixel `(60, 0)`, whose distance `29.5 < 30` gives contribution
`(1 - 29.5/30) * 0.4 = 1/150`; but the source's loop bound
`x1 = Math.min(width, Math.floor(point.x + radius)) = 60` excludes `x = 60`,
so the accumulator stores `0` there. -/
theorem C1_counterexample :
    accumulate 61 1 [⟨30.5, 0⟩] 60 0 = 0 ∧
    specAccumulate 61 1 [⟨30.5, 0⟩] 60 0 = 1 / 150 ∧
    accumulate 61 1 [⟨30.5, 0⟩] 60 0 ≠ specAccumulate 61 1 [⟨30.5, 0⟩] 60 0 := by
  have hd : distTo ⟨30.5, 0⟩ 60 0 = 29.5 := by
    unfold distTo
    push_cast
    exact sqrt_eval (by norm_num) (by norm_num)
  have hcode : accumulate 61 1 [⟨30.5, 0⟩] 60 0 = 0 := by
    rw [accumulate_single]
    unfold contrib
    rw [if_neg]
    intro hc
    exact absurd hc.1 (by unfold inBBox radius; norm_num)
  have hspec : specAccumulate 61 1 [⟨30.5, 0⟩] 60 0 = 1 / 150 := by
    unfold specAccumulate specApplyPoint
    rw [List.foldl_cons, List.foldl_nil]
    rw [if_pos ⟨by unfold specInBox radius; norm_num, by rw [hd]; norm_num [radius]⟩]
    rw [hd]
    unfold radius maxPointsPerPixel
    norm_num
  exact ⟨hcode, hspec, by rw [hcode, hspec]; norm_num⟩

/-- C1 (amended): per point the source scans the half-open floor-based range
`[max(0, floor(p.x - 30)), min(width, floor(p.x + 30)))` (and likewise for
`y`); every scanned pixel at distance `d < 30` receives `(1 - d/30) * 0.4`,
clamped incrementally at 5, which equals the clamped sum of per-point
contributions; and a single point (anywhere, including outside the raster)
yields exactly its falloff value at every scanned pixel within the radius. -/
theorem C1_amended (w h : ℤ) (ps : List Point) (x y : ℤ) :
    accumulate w h ps x y
      = min ((ps.map fun p => contrib w h p x y).sum) maxPointsPerPixel
    ∧ ∀ p : Point, inBBox w h p x y → distTo p x y < radius →
        accumulate w h [p] x y = (1 - distTo p x y / radius) * 0.4 := by
  refine ⟨accumulate_eq_min_sum w h ps x y, ?_⟩
  intro p hbox hdist
  rw [accumulate_single]
  unfold contrib
  rw [if_pos ⟨hbox, hdist⟩]

/-- Witness for C1 (amended): the point `(30.5, 0)` lies 28.5 away from the
scanned pixel `(59, 0)` of a 61x12 raster and deposits
`(1 - 28.5/30) * 0.4 = 1/50` there. -/
theorem C1_amended_witness :
    accumulate 61 12 [⟨30.5, 0⟩] 59 0 = 1 / 50 := by
  have hd : distTo ⟨30.5, 0⟩ 59 0 = 28.5 := by
    unfold distTo
    push_cast
    exact sqrt_eval (by norm_num) (by norm_num)
  have h := (C1_amended 61 12 [⟨30.5, 0⟩] 59 0).2 ⟨30.5, 0⟩
    (by unfold inBBox radius; norm_num)
    (by rw [hd]; norm_num [radius])
  rw [h, hd]
  norm_num [radius]

/-- Each coordinate difference is bounded by the Euclidean distance. -/
lemma abs_coord_le_distTo (p : Point) (x y : ℤ) :
    |p.x - (x : ℝ)| ≤ distTo p x y ∧ |p.y - (y : ℝ)| ≤ distTo p x y := by
  constructor
  · have h1 : |p.x - (x : ℝ)| = Real.sqrt ((p.x - x) * (p.x - x)) :=
      (Real.sqrt_mul_self_eq_abs _).symm
    have h2 : Real.sqrt ((p.x - (x : ℝ)) * (p.x - x)) ≤ distTo p x y :=
      Real.sqrt_le_sqrt (by nlinarith [mul_self_nonneg (p.y - (y : ℝ))])
    linarith [h1 ▸ h2]
  · have h1 : |p.y - (y : ℝ)| = Real.sqrt ((p.y - y) * (p.y - y)) :=
      (Real.sqrt_mul_self_eq_abs _).symm
    have h2 : Real.sqrt ((p.y - (y : ℝ)) * (p.y - y)) ≤ distTo p x y :=
      Real.sqrt_le_sqrt (by nlinarith [mul_self_nonneg (p.x - (x : ℝ))])
    linarith [h1 ▸ h2]

/-- For a point with integer coordinates, every raster pixel within the
falloff radius lies inside the scanned floor-based range (the floor bounds
collapse to `p.x - 30` and `p.x + 30` exactly, so no in-radius pixel is
missed; this is the case in which the source agrees with the closed box of
the spec). -/
lemma intPoint_inBBox (w h px py x y : ℤ)
    (hx0 : 0 ≤ x) (hxw : x < w) (hy0 : 0 ≤ y) (hyh : y < h)
    (hd : distTo ⟨(px : ℝ), (py : ℝ)⟩ x y < radius) :
    inBBox w h ⟨(px : ℝ), (py : ℝ)⟩ x y := by
  obtain ⟨hax0, hay0⟩ := abs_coord_le_distTo ⟨(px : ℝ), (py : ℝ)⟩ x y
  have hax : -radius < (px : ℝ) - x ∧ (px : ℝ) - x < radius :=
    abs_lt.mp (lt_of_le_of_lt hax0 hd)
  have hay : -radius < (py : ℝ) - y ∧ (py : ℝ) - y < radius :=
    abs_lt.mp (lt_of_le_of_lt hay0 hd)
  have hx1 : px - x < 30 := by
    have : ((px - x : ℤ) : ℝ) < 30 := by push_cast; simp only [radius] at hd hax; linarith [hax.2]
    exact_mod_cast this
  have hx2 : x - px < 30 := by
    have : ((x - px : ℤ) : ℝ) < 30 := by push_cast; simp only [radius] at hd hax; linarith [hax.1]
    exact_mod_cast this
  have hy1 : py - y < 30 := by
    have : ((py - y : ℤ) : ℝ) < 30 := by push_cast; simp only [radius] at hd hay; linarith [hay.2]
    exact_mod_cast this
  have hy2 : y - py < 30 := by
    have : ((y - py : ℤ) : ℝ) < 30 := by push_cast; simp only [radius] at hd hay; linarith [hay.1]
    exact_mod_cast this
  have hfx1 : ⌊((px : ℝ)) - radius⌋ = px - 30 := by
    rw [show ((px : ℝ)) - radius = ((px - 30 : ℤ) : ℝ) by unfold radius; push_cast; ring,
      Int.floor_intCast]
  have hfx2 : ⌊((px : ℝ)) + radius⌋ = px + 30 := by
    rw [show ((px : ℝ)) + radius = ((px + 30 : ℤ) : ℝ) by unfold radius; push_cast; ring,
      Int.floor_intCast]
  have hfy1 : ⌊((py : ℝ)) - radius⌋ = py - 30 := by
    rw [show ((py : ℝ)) - radius = ((py - 30 : ℤ) : ℝ) by unfold radius; push_cast; ring,
      Int.floor_intCast]
  have hfy2 : ⌊((py : ℝ)) + radius⌋ = py + 30 := by
    rw [show ((py : ℝ)) + radius = ((py + 30 : ℤ) : ℝ) by unfold radius; push_cast; ring,
      Int.floor_intCast]
  unfold inBBox
  refine ⟨?_, ?_, ?_, ?_⟩
  · show max 0 ⌊((px : ℝ)) - radius⌋ ≤ x
    rw [hfx1]; omega
  · show x < min w ⌊((px : ℝ)) + radius⌋
    rw [hfx2]; omega
  · show max 0 ⌊((py : ℝ)) - radius⌋ ≤ y
    rw [hfy1]; omega
  · show y < min h ⌊((py : ℝ)) + radius⌋
    rw [hfy2]; omega

/-- Closed form of the intensity of a single integer-coordinate point at any
raster pixel: the pure radial falloff. -/
lemma accumulate_int_single (w h px py x y : ℤ)
    (hx0 : 0 ≤ x) (hxw : x < w) (hy0 : 0 ≤ y) (hyh : y < h) :
    accumulate w h [⟨(px : ℝ), (py : ℝ)⟩] x y
      = if distTo ⟨(px : ℝ), (py : ℝ)⟩ x y < radius then
          (1 - distTo ⟨(px : ℝ), (py : ℝ)⟩ x y / radius) * 0.4
        else 0 := by
  rw [accumulate_single]
  unfold contrib
  by_cases hd : distTo ⟨(px : ℝ), (py : ℝ)⟩ x y < radius
  · rw [if_pos ⟨intPoint_inBBox w h px py x y hx0 hxw hy0 hyh hd, hd⟩, if_pos hd]
  · rw [if_neg (fun hc => hd hc.2), if_neg hd]

/-- C7 fails as stated: for the single point `(30.5, 0)` on a 61x12 raster,
the pixel `(60, 0)` at distance 29.5 is skipped by the floor-based loop bound
and keeps intensity 0, while the strictly farther pixel `(3, 11)` at distance
`sqrt 877.25 < 30` receives a positive intensity — intensity does not
strictly decrease with distance. -/
theorem C7_counterexample :
    distTo ⟨30.5, 0⟩ 60 0 < distTo ⟨30.5, 0⟩ 3 11
    ∧ distTo ⟨30.5, 0⟩ 3 11 < radius
    ∧ accumulate 61 12 [⟨30.5, 0⟩] 60 0 = 0
    ∧ 0 < accumulate 61 12 [⟨30.5, 0⟩] 3 11 := by
  have hd1 : distTo ⟨30.5, 0⟩ 60 0 = 29.5 := by
    unfold distTo
    push_cast
    exact sqrt_eval (by norm_num) (by norm_num)
  have hd2 : distTo ⟨30.5, 0⟩ 3 11 = Real.sqrt 877.25 := by
    unfold distTo
    norm_num
  have hlt : Real.sqrt 877.25 < 30 := by
    have h := Real.sqrt_lt_sqrt (by norm_num : (0:ℝ) ≤ 877.25) (by norm_num : (877.25:ℝ) < 900)
    rwa [show Real.sqrt 900 = 30 from sqrt_eval (by norm_num) (by norm_num)] at h
  refine ⟨?_, ?_, ?_, ?_⟩
  · rw [hd1, hd2]
    have h := Real.sqrt_lt_sqrt (by norm_num : (0:ℝ) ≤ 870.25) (by norm_num : (870.25:ℝ) < 877.25)
    rwa [show Real.sqrt 870.25 = 29.5 from sqrt_eval (by norm_num) (by norm_num)] at h
  · rw [hd2]
    unfold radius
    exact hlt
  · rw [accumulate_single]
    unfold contrib
    rw [if_neg]
    intro hc
    exact absurd hc.1 (by unfold inBBox radius; norm_num)
  · rw [accumulate_single]
    unfold contrib
    rw [if_pos ⟨by unfold inBBox radius; norm_num, by rw [hd2]; unfold radius; exact hlt⟩]
    rw [hd2]
    unfold radius
    have hq : Real.sqrt 877.25 / 30 < 1 := by
      rw [div_lt_one (by norm_num : (0:ℝ) < 30)]
      exact hlt
    nlinarith

/-- C7 (amended): for a single point with integer coordinates, intensity at
raster pixels strictly decreases as the distance to the point increases, over
pixels within the falloff radius, and is exactly 0 at every raster pixel
whose distance is at least 30. For non-integer coordinates the floor-based
loop bound can zero out pixels just inside the radius (see the
counterexample), and beyond the radius all intensities are equal (0), so
strict decrease is restricted to the pixels the falloff reaches. -/
theorem C7_amended (w h px py x1 y1 x2 y2 : ℤ)
    (hx10 : 0 ≤ x1) (hx1w : x1 < w) (hy10 : 0 ≤ y1) (hy1h : y1 < h)
    (hx20 : 0 ≤ x2) (hx2w : x2 < w) (hy20 : 0 ≤ y2) (hy2h : y2 < h) :
    (distTo ⟨(px : ℝ), (py : ℝ)⟩ x1 y1 < distTo ⟨(px : ℝ), (py : ℝ)⟩ x2 y2 →
      distTo ⟨(px : ℝ), (py : ℝ)⟩ x2 y2 < radius →
      accumulate w h [⟨(px : ℝ), (py : ℝ)⟩] x2 y2
        < accumulate w h [⟨(px : ℝ), (py : ℝ)⟩] x1 y1)
    ∧ (radius ≤ distTo ⟨(px : ℝ), (py : ℝ)⟩ x2 y2 →
        accumulate w h [⟨(px : ℝ), (py : ℝ)⟩] x2 y2 = 0) := by
  constructor
  · intro h12 h2r
    rw [accumulate_int_single w h px py x1 y1 hx10 hx1w hy10 hy1h,
      accumulate_int_single w h px py x2 y2 hx20 hx2w hy20 hy2h,
      if_pos h2r, if_pos (h12.trans h2r)]
    have hr := radius_pos
    have hdiv : distTo ⟨(px : ℝ), (py : ℝ)⟩ x1 y1 / radius
        < distTo ⟨(px : ℝ), (py : ℝ)⟩ x2 y2 / radius :=
      div_lt_div_of_pos_right h12 hr
    nlinarith
  · intro h2r
    rw [accumulate_int_single w h px py x2 y2 hx20 hx2w hy20 hy2h,
      if_neg (not_lt.mpr h2r)]

/-- Witness for C7 (amended): on a 100x100 raster with a single point at
`(50, 50)`, the pixel `(50, 51)` at distance 1 has strictly lower intensity
than the centre pixel at distance 0, and the pixel `(90, 50)` at distance 40
has intensity exactly 0. -/
theorem C7_amended_witness :
    accumulate 100 100 [⟨((50 : ℤ) : ℝ), ((50 : ℤ) : ℝ)⟩] 50 51
      < accumulate 100 100 [⟨((50 : ℤ) : ℝ), ((50 : ℤ) : ℝ)⟩] 50 50
    ∧ accumulate 100 100 [⟨((50 : ℤ) : ℝ), ((50 : ℤ) : ℝ)⟩] 90 50 = 0 := by
  have hd0 : distTo ⟨((50 : ℤ) : ℝ), ((50 : ℤ) : ℝ)⟩ 50 50 = 0 := by
    unfold distTo
    push_cast
    exact sqrt_eval (by norm_num) (by norm_num)
  have hd1 : distTo ⟨((50 : ℤ) : ℝ), ((50 : ℤ) : ℝ)⟩ 50 51 = 1 := by
    unfold distTo
    push_cast
    exact sqrt_eval (by norm_num) (by norm_num)
  have hd40 : distTo ⟨((50 : ℤ) : ℝ), ((50 : ℤ) : ℝ)⟩ 90 50 = 40 := by
    unfold distTo
    push_cast
    exact sqrt_eval (by norm_num) (by norm_num)
  have h := C7_amended 100 100 50 50 50 50 50 51
    (by norm_num) (by norm_num) (by norm_num) (by norm_num)
    (by norm_num) (by norm_num) (by norm_num) (by norm_num)
  have h2 := C7_amended 100 100 50 50 50 50 90 50
    (by norm_num) (by norm_num) (by norm_num) (by norm_num)
    (by norm_num) (by norm_num) (by norm_num) (by norm_num)
  exact ⟨h.1 (by rw [hd0, hd1]; norm_num) (by rw [hd1]; norm_num [radius]),
    h2.2 (by rw [hd40]; norm_num [radius])⟩

/-- C8: stacked identical integer-coordinate points sum linearly at their
location until the 5.0 cap; for `n ≤ 12` (the spec's example bound) the value
is exactly `n * 0.4`; the per-pixel value is invariant under reordering of
the point list; and in general the incremental per-update clamp agrees with
clamping the total contribution sum once at the end (last conjunct). -/
theorem C8_stacked (w h px py : ℤ) (n : ℕ)
    (hx0 : 0 ≤ px) (hxw : px < w) (hy0 : 0 ≤ py) (hyh : py < h) :
    accumulate w h (List.replicate n ⟨(px : ℝ), (py : ℝ)⟩) px py
      = min ((n : ℝ) * 0.4) maxPointsPerPixel
    ∧ (n ≤ 12 →
        accumulate w h (List.replicate n ⟨(px : ℝ), (py : ℝ)⟩) px py = (n : ℝ) * 0.4)
    ∧ (∀ (ps qs : List Point), ps.Perm qs →
        ∀ a b : ℤ, accumulate w h ps a b = accumulate w h qs a b)
    ∧ ∀ (qs : List Point) (a b : ℤ),
        accumulate w h qs a b
          = min ((qs.map fun p => contrib w h p a b).sum) maxPointsPerPixel := by
  have hd : distTo ⟨(px : ℝ), (py : ℝ)⟩ px py = 0 := by
    unfold distTo
    simp
  have hc : contrib w h ⟨(px : ℝ), (py : ℝ)⟩ px py = 0.4 := by
    unfold contrib
    rw [if_pos ⟨intPoint_inBBox w h px py px py hx0 hxw hy0 hyh (by rw [hd]; exact radius_pos),
      by rw [hd]; exact radius_pos⟩]
    rw [hd]
    norm_num
  have hmain : accumulate w h (List.replicate n ⟨(px : ℝ), (py : ℝ)⟩) px py
      = min ((n : ℝ) * 0.4) maxPointsPerPixel := by
    rw [accumulate_eq_min_sum, List.map_replicate, hc, List.sum_replicate, nsmul_eq_mul]
  refine ⟨hmain, ?_, ?_, ?_⟩
  · intro hn
    rw [hmain]
    refine min_eq_left ?_
    have hn' : (n : ℝ) ≤ 12 := by exact_mod_cast hn
    unfold maxPointsPerPixel
    nlinarith
  · intro ps qs hperm a b
    rw [accumulate_eq_min_sum, accumulate_eq_min_sum]
    rw [List.Perm.sum_eq (hperm.map fun p => contrib w h p a b)]
  · intro qs a b
    exact accumulate_eq_min_sum w h qs a b

/-- Witness for C8: three stacked points at `(50, 50)` on a 100x100 raster
accumulate exactly `3 * 0.4 = 1.2` at their location. -/
theorem C8_stacked_witness :
    accumulate 100 100 (List.replicate 3 ⟨((50 : ℤ) : ℝ), ((50 : ℤ) : ℝ)⟩) 50 50
      = (1.2 : ℝ) := by
  have h := (C8_stacked 100 100 50 50 3
    (by norm_num) (by norm_num) (by norm_num) (by norm_num)).2.1 (by norm_num)
  rw [h]
  norm_num

/-- Rounding used inside `hslToRgb`: JavaScript `Math.round(x)`, which is
`floor(x + 0.5)`. -/
noncomputable def jsRound (x : ℝ) : ℤ := ⌊x + 1 / 2⌋

/-- Hue-to-channel helper of the source (`hue2rgb`): wraps `t` into `[0, 1]`
and applies the standard piecewise hue ramp. -/
noncomputable def hue2rgb (p q t : ℝ) : ℝ :=
  let t1 := if t < 0 then t + 1 else t
  let t2 := if 1 < t1 then t1 - 1 else t1
  if t2 < 1 / 6 then p + (q - p) * 6 * t2
  else if t2 < 1 / 2 then q
  else if t2 < 2 / 3 then p + (q - p) * (2 / 3 - t2) * 6
  else p

/-- HSL to RGB conversion of the source (`hslToRgb`), returning the
`Math.round`-ed byte triple. -/
noncomputable def hslToRgb (hu s l : ℝ) : ℤ × ℤ × ℤ :=
  if s = 0 then (jsRound (l * 255), jsRound (l * 255), jsRound (l * 255))
  else
    let q := if l < 0.5 then l * (1 + s) else l + s - l * s
    let p := 2 * l - q
    (jsRound (hue2rgb p q (hu + 1 / 3) * 255), jsRound (hue2rgb p q hu * 255),
      jsRound (hue2rgb p q (hu - 1 / 3) * 255))

/-- Conversion performed by an assignment into a `Uint8ClampedArray`
(ECMAScript ToUint8Clamp): clamp to `[0, 255]` and round, resolving exact
ties to the even neighbour. -/
noncomputable def toUint8Clamp (x : ℝ) : ℤ :=
  if x ≤ 0 then 0
  else if 255 ≤ x then 255
  else if x - ⌊x⌋ < 1 / 2 then ⌊x⌋
  else if 1 / 2 < x - ⌊x⌋ then ⌊x⌋ + 1
  else if Even ⌊x⌋ then ⌊x⌋ else ⌊x⌋ + 1

/-- RGBA pixel; channels are byte values modelled as reals. -/
structure RGBA where
  r : ℝ
  g : ℝ
  b : ℝ
  a : ℝ

/-- Per-pixel colour mapping loop of `createHeatmapOverlay`: display-clamp
the intensity at 1; a pixel with zero (clamped) intensity keeps the
zero-initialised RGBA `(0,0,0,0)` of `createImageData`; otherwise the hue
ramps from blue (low) to red (high) at saturation 1 and lightness 0.5, and
each store into `imageData.data` (a `Uint8ClampedArray`) converts with
ToUint8Clamp. -/
noncomputable def colorizePixel (v : ℝ) : RGBA :=
  if 0 < min v 1 then
    let c := hslToRgb ((1 - min v 1) * (240 / 360)) 1 0.5
    ⟨(toUint8Clamp (c.1 : ℝ) : ℝ), (toUint8Clamp (c.2.1 : ℝ) : ℝ),
      (toUint8Clamp (c.2.2 : ℝ) : ℝ), (toUint8Clamp (min v 1 * 180) : ℝ)⟩
  else ⟨0, 0, 0, 0⟩

lemma hslToRgb_red : hslToRgb 0 1 0.5 = (255, 0, 0) := by
  unfold hslToRgb hue2rgb jsRound
  norm_num

lemma toUint8Clamp_zero : toUint8Clamp 0 = 0 := by
  unfold toUint8Clamp
  norm_num

lemma toUint8Clamp_255 : toUint8Clamp 255 = 255 := by
  unfold toUint8Clamp
  norm_num

lemma toUint8Clamp_180 : toUint8Clamp 180 = 180 := by
  unfold toUint8Clamp
  norm_num

lemma toUint8Clamp_half : toUint8Clamp (1 / 2) = 0 := by
  unfold toUint8Clamp
  norm_num

lemma toUint8Clamp_le_180 {x : ℝ} (hx : x ≤ 180) : toUint8Clamp x ≤ 180 := by
  unfold toUint8Clamp
  have hfl : ⌊x⌋ ≤ 180 := by
    have h := Int.floor_le_floor hx
    rwa [show ⌊(180 : ℝ)⌋ = 180 by norm_num] at h
  have hfx : (⌊x⌋ : ℝ) ≤ x := Int.floor_le x
  split_ifs with h1 h2 h3 h4 h5
  · norm_num
  · linarith
  · exact hfl
  · have h179 : (⌊x⌋ : ℝ) < 180 := by linarith
    have : ⌊x⌋ < 180 := by exact_mod_cast h179
    omega
  · exact hfl
  · have h179 : (⌊x⌋ : ℝ) < 180 := by linarith
    have : ⌊x⌋ < 180 := by exact_mod_cast h179
    omega

/-- C5 fails as stated: an intensity-map value of `1/360` produces the alpha
store `0.5`, which the `Uint8ClampedArray` conversion rounds to the even
neighbour `0`, while `round(min(intensity,1) * 180) = round(0.5) = 1`. -/
theorem C5_counterexample :
    (colorizePixel (1 / 360)).a = 0 ∧ round ((min (1 / 360 : ℝ) 1) * 180) = 1 := by
  constructor
  · unfold colorizePixel
    rw [if_pos (by norm_num)]
    show (toUint8Clamp (min (1 / 360 : ℝ) 1 * 180) : ℝ) = 0
    rw [show min (1 / 360 : ℝ) 1 * 180 = 1 / 2 by rw [min_eq_left (by norm_num)]; norm_num,
      toUint8Clamp_half]
    norm_num
  · rw [show min (1 / 360 : ℝ) 1 * 180 = 1 / 2 by rw [min_eq_left (by norm_num)]; norm_num,
      round_eq]
    norm_num

/-- C5 (amended): for every nonnegative intensity value, zero intensity gives
the fully transparent pixel `(0,0,0,0)`; clamped intensity 1 gives pure red
with alpha exactly 180; and the output alpha is the ToUint8Clamp conversion
(round with ties to even, not round-half-up) of `min(intensity,1) * 180`, so
it never exceeds 180. -/
theorem C5_amended (v : ℝ) (hv : 0 ≤ v) :
    (v = 0 → colorizePixel v = ⟨0, 0, 0, 0⟩)
    ∧ (min v 1 = 1 → colorizePixel v = ⟨255, 0, 0, 180⟩)
    ∧ (colorizePixel v).a = (toUint8Clamp (min v 1 * 180) : ℝ)
    ∧ (colorizePixel v).a ≤ 180 := by
  have halpha : (colorizePixel v).a = (toUint8Clamp (min v 1 * 180) : ℝ) := by
    unfold colorizePixel
    split
    · rfl
    · rename_i hpos
      have hmin : min v 1 = 0 :=
        le_antisymm (not_lt.mp hpos) (le_min hv zero_le_one)
      rw [hmin]
      show (0 : ℝ) = (toUint8Clamp (0 * 180) : ℝ)
      rw [zero_mul, toUint8Clamp_zero]
      norm_num
  refine ⟨?_, ?_, halpha, ?_⟩
  · rintro rfl
    unfold colorizePixel
    rw [if_neg (by norm_num)]
  · intro h1
    unfold colorizePixel
    rw [if_pos (by rw [h1]; norm_num)]
    show RGBA.mk _ _ _ _ = _
    rw [h1, show ((1 : ℝ) - 1) * (240 / 360) = 0 by norm_num, hslToRgb_red]
    show RGBA.mk (toUint8Clamp ((255 : ℤ) : ℝ) : ℝ) (toUint8Clamp ((0 : ℤ) : ℝ) : ℝ)
      (toUint8Clamp ((0 : ℤ) : ℝ) : ℝ) (toUint8Clamp ((1 : ℝ) * 180) : ℝ) = _
    rw [show (((255 : ℤ) : ℝ)) = (255 : ℝ) by norm_num,
      show (((0 : ℤ) : ℝ)) = (0 : ℝ) by norm_num,
      show ((1 : ℝ) * 180) = (180 : ℝ) by norm_num,
      toUint8Clamp_255, toUint8Clamp_zero, toUint8Clamp_180]
    norm_num
  · rw [halpha]
    have hle : min v 1 * 180 ≤ 180 := by
      have := min_le_right v 1
      nlinarith
    have h := toUint8Clamp_le_180 hle
    exact_mod_cast h

/-- Witness for C5 (amended): intensity 1 maps to the pure red, alpha-180
overlay pixel. -/
theorem C5_amended_witness : colorizePixel 1 = ⟨255, 0, 0, 180⟩ :=
  (C5_amended 1 (by norm_num)).2.1 (by norm_num)

/-- Raster of RGBA pixels addressed by integer coordinates. Canvas
operations touch only the rect `[0,w) x [0,h)`; pixels outside stay
transparent. -/
abbrev Raster := ℤ → ℤ → RGBA

/-- Fully transparent pixel. -/
noncomputable def blankPix : RGBA := ⟨0, 0, 0, 0⟩

/-- Opaque black, the fill style set before `fillRect`. -/
noncomputable def blackPix : RGBA := ⟨0, 0, 0, 255⟩

/-- Membership of a pixel in the canvas rect `[0,w) x [0,h)`. -/
def inRect (w h x y : ℤ) : Prop := 0 ≤ x ∧ x < w ∧ 0 ≤ y ∧ y < h

instance (w h x y : ℤ) : Decidable (inRect w h x y) := by
  unfold inRect; infer_instance

/-- Resulting alpha (in `[0,1]`) of a source-over blend with byte-valued
alphas. -/
noncomputable def outAlpha (s d : RGBA) : ℝ := s.a / 255 + d.a / 255 * (1 - s.a / 255)

/-- Standard source-over alpha compositing on non-premultiplied RGBA with
byte-valued alpha (weights `a/255`); a fully transparent result is the
transparent black canvas pixel. -/
noncomputable def overPix (s d : RGBA) : RGBA :=
  if outAlpha s d = 0 then ⟨0, 0, 0, 0⟩
  else
    ⟨(s.r * (s.a / 255) + d.r * (d.a / 255) * (1 - s.a / 255)) / outAlpha s d,
      (s.g * (s.a / 255) + d.g * (d.a / 255) * (1 - s.a / 255)) / outAlpha s d,
      (s.b * (s.a / 255) + d.b * (d.a / 255) * (1 - s.a / 255)) / outAlpha s d,
      255 * outAlpha s d⟩

/-- Canvas composite operations used by the source. -/
inductive Op where
  | sourceOver
  | lighter

/-- Additive (`lighter`) compositing, channelwise clamped addition. The
source sets this mode but then only calls `putImageData`, which ignores the
composite operation, so this blend is never exercised by any drawing call. -/
noncomputable def lighterPix (s d : RGBA) : RGBA :=
  ⟨min (s.r + d.r) 255, min (s.g + d.g) 255, min (s.b + d.b) 255, min (s.a + d.a) 255⟩

noncomputable def applyOp : Op → RGBA → RGBA → RGBA
  | Op.sourceOver, s, d => overPix s d
  | Op.lighter, s, d => lighterPix s d

/-- 2D canvas context state: pixel buffer plus current
`globalCompositeOperation`. -/
structure Ctx where
  pix : Raster
  gco : Op

/-- Fresh canvas from `createCanvas`: fully transparent, default composite
operation `source-over`. -/
noncomputable def ctxNew : Ctx := ⟨fun _ _ => blankPix, Op.sourceOver⟩

/-- `ctx.fillRect(0, 0, w, h)` with fill style `c`: composites the fill
colour over every pixel of the rect under the current composite operation. -/
noncomputable def ctxFillRect (w h : ℤ) (c : RGBA) (t : Ctx) : Ctx :=
  ⟨fun x y => if inRect w h x y then applyOp t.gco c (t.pix x y) else t.pix x y, t.gco⟩

/-- Assignment to `ctx.globalCompositeOperation`. -/
def ctxSetGCO (o : Op) (t : Ctx) : Ctx := ⟨t.pix, o⟩

/-- `ctx.putImageData(imageData, 0, 0)` for a full-canvas image: writes the
pixel data verbatim; per the canvas specification `putImageData` is not
affected by the composite operation (nor by clipping or transforms). -/
noncomputable def ctxPutImageData (w h : ℤ) (d : Raster) (t : Ctx) : Ctx :=
  ⟨fun x y => if inRect w h x y then d x y else t.pix x y, t.gco⟩

/-- `ctx.drawImage(img, 0, 0)` for an image with the canvas's dimensions:
composites the image over the canvas under the current composite
operation. -/
noncomputable def ctxDrawImage (w h : ℤ) (src : Raster) (t : Ctx) : Ctx :=
  ⟨fun x y => if inRect w h x y then applyOp t.gco (src x y) (t.pix x y) else t.pix x y, t.gco⟩

/-- The `imageData` produced by the colour-mapping loop of
`createHeatmapOverlay`: `colorizePixel` of the intensity map inside the
raster, untouched (transparent, as `createImageData` initialises) outside. -/
noncomputable def imageDataOf (w h : ℤ) (ps : List Point) : Raster :=
  fun x y => if inRect w h x y then colorizePixel (accumulate w h ps x y) else blankPix

/-- `createHeatmapOverlay` as the source builds the overlay raster: black
background fill, composite mode set to `lighter`, direct `putImageData` of
the colourised intensities, then a `drawImage` copy onto the fresh
`blurredCanvas` whose buffer is returned. -/
noncomputable def createHeatmapOverlay (w h : ℤ) (ps : List Point) : Raster :=
  (ctxDrawImage w h
    (ctxPutImageData w h (imageDataOf w h ps)
      (ctxSetGCO Op.lighter (ctxFillRect w h blackPix ctxNew))).pix
    ctxNew).pix

/-- Overlay construction with the background fill and blend-mode setup
removed: the comparison pipeline of claim C9. -/
noncomputable def createHeatmapOverlayNoSetup (w h : ℤ) (ps : List Point) : Raster :=
  (ctxDrawImage w h (ctxPutImageData w h (imageDataOf w h ps) ctxNew).pix ctxNew).pix

/-- C9: the initial black background fill and the `lighter` composite-mode
assignment have no observable effect on the produced overlay raster:
`putImageData` ignores the composite mode and overwrites the entire canvas
rect, so for every point list and dimensions the pipeline with the setup
equals the pipeline without it. -/
theorem C9_setup_noop (w h : ℤ) (ps : List Point) :
    createHeatmapOverlay w h ps = createHeatmapOverlayNoSetup w h ps := by
  unfold createHeatmapOverlay createHeatmapOverlayNoSetup
  have hpix : (ctxPutImageData w h (imageDataOf w h ps)
      (ctxSetGCO Op.lighter (ctxFillRect w h blackPix ctxNew))).pix
      = (ctxPutImageData w h (imageDataOf w h ps) ctxNew).pix := by
    funext x y
    unfold ctxPutImageData ctxSetGCO ctxFillRect ctxNew
    by_cases hr : inRect w h x y
    · simp only [if_pos hr]
    · simp only [if_neg hr]
  rw [hpix]

lemma overPix_opaque_over_blank (s : RGBA) (hs : s.a = 255) :
    overPix s blankPix = s := by
  obtain ⟨r, g, b, a⟩ := s
  simp only at hs
  subst hs
  unfold overPix outAlpha blankPix
  rw [if_neg (by norm_num)]
  simp only [RGBA.mk.injEq]
  norm_num

lemma overPix_transparent_over_opaque (s d : RGBA) (hs : s.a = 0) (hd : d.a = 255) :
    overPix s d = d := by
  obtain ⟨r, g, b, a⟩ := s
  obtain ⟨r2, g2, b2, a2⟩ := d
  simp only at hs hd
  subst hs
  subst hd
  unfold overPix outAlpha
  rw [if_neg (by norm_num)]
  simp only [RGBA.mk.injEq]
  norm_num

lemma overPix_blank_blank : overPix blankPix blankPix = blankPix := by
  unfold overPix outAlpha blankPix
  rw [if_pos (by norm_num)]

/-- Parsed render request, as destructured from
`renderWebPageSchema.parse(body)`. -/
structure Request where
  url : String
  width : ℤ
  height : ℤ
  points : Option (List Point)

/-- Environment oracle for one handler run: which awaited browser-side
operation succeeds, and the full-page screenshot the browser produces for a
given url and viewport (actual width, actual height, pixels — the dimensions
`loadImage` reports for the captured buffer). -/
structure Oracle where
  launchOk : Bool
  newPageOk : Bool
  viewportOk : Bool
  gotoOk : Bool
  screenshotOk : Bool
  loadShotOk : Bool
  loadHeatOk : Bool
  closeTryOk : Bool
  closeCatchOk : Bool
  render : String → ℤ → ℤ → ℤ × ℤ × (ℤ → ℤ → ℝ × ℝ × ℝ)

/-- Observable browser-process lifecycle events of one handler run. -/
inductive Ev where
  | launch
  | close
deriving DecidableEq

/-- Internal errors that can escape the handler without being mapped to the
generic failure: a `puppeteer.launch` rejection (it happens before the `try`)
and a rejection of the `browser.close()` inside the `catch` (which pre-empts
`createError`). -/
inductive ErrKind where
  | launchFailed
  | closeFailed
deriving DecidableEq

/-- Handler outcome: success with the composited image, the generic
`createError` 500 response with its fixed message, or a raw propagated
internal error. -/
inductive Res where
  | ok (w h : ℤ) (img : Raster)
  | generic500
  | raw (e : ErrKind)

/-- Screenshot pixels lifted to RGBA: puppeteer page screenshots are opaque
(the default white page background is painted). -/
noncomputable def opaqueR (c : ℝ × ℝ × ℝ) : RGBA := ⟨c.1, c.2.1, c.2.2, 255⟩

/-- The conditional `points ? createHeatmapOverlay(points, ...) : null` of
the source. A present-but-empty `points` array is truthy in JavaScript, so it
also produces an overlay. -/
noncomputable def heatmapOption (w h : ℤ) (pts : Option (List Point)) : Option Raster :=
  match pts with
  | none => none
  | some ps => some (createHeatmapOverlay w h ps)

/-- Compositing stage of the handler: draw the screenshot onto a fresh canvas
of the actual dimensions, then draw the overlay over it when present. -/
noncomputable def finalImage (w h : ℤ) (shot : ℤ → ℤ → ℝ × ℝ × ℝ)
    (pts : Option (List Point)) : Raster :=
  let base := ctxDrawImage w h (fun x y => opaqueR (shot x y)) ctxNew
  match heatmapOption w h pts with
  | none => base.pix
  | some hm => (ctxDrawImage w h hm base).pix

/-- Body of the handler's `try` block: newPage, setViewport (width from the
request, height hardcoded to 0), goto, screenshot, loadImage of the
screenshot, overlay construction and loadImage of the overlay (only when
`points` is present), compositing, and PNG encoding. Returns the actual
dimensions and composited image when every awaited step succeeds, `none`
when one of them throws. -/
noncomputable def tryBody (o : Oracle) (req : Request) : Option (ℤ × ℤ × Raster) :=
  if o.newPageOk = true ∧ o.viewportOk = true ∧ o.gotoOk = true ∧ o.screenshotOk = true
      ∧ o.loadShotOk = true ∧ (req.points.isSome = true → o.loadHeatOk = true) then
    some ((o.render req.url req.width 0).1, (o.render req.url req.width 0).2.1,
      finalImage (o.render req.url req.width 0).1 (o.render req.url req.width 0).2.1
        (o.render req.url req.width 0).2.2 req.points)
  else none

/-- The exported `defineEventHandler`: launch the browser (outside the
`try`); on success run the `try` body, closing the browser before returning;
any throw inside the `try` reaches the `catch`, which closes the browser
again and throws the generic 500 `createError` (or propagates the close
rejection). Each emitted `Ev.close` is one `browser.close()` invocation. -/
noncomputable def handler (o : Oracle) (req : Request) : List Ev × Res :=
  if o.launchOk = true then
    match tryBody o req with
    | some (aw, ah, img) =>
      if o.closeTryOk = true then ([Ev.launch, Ev.close], Res.ok aw ah img)
      else ([Ev.launch, Ev.close, Ev.close],
        if o.closeCatchOk = true then Res.generic500 else Res.raw ErrKind.closeFailed)
    | none => ([Ev.launch, Ev.close],
        if o.closeCatchOk = true then Res.generic500 else Res.raw ErrKind.closeFailed)
  else ([], Res.raw ErrKind.launchFailed)

/-- Concrete oracle: launch succeeds, navigation (`page.goto`) times out,
teardown succeeds. -/
noncomputable def oracleNavTimeout : Oracle :=
  ⟨true, true, true, false, true, true, true, true, true,
    fun _ _ _ => (1, 1, fun _ _ => (0, 0, 0))⟩

/-- Concrete oracle: `puppeteer.launch` itself rejects. -/
noncomputable def oracleLaunchFail : Oracle :=
  ⟨false, true, true, true, true, true, true, true, true,
    fun _ _ _ => (1, 1, fun _ _ => (0, 0, 0))⟩

/-- Concrete oracle: everything succeeds except `page.screenshot`. -/
noncomputable def oracleShotFail : Oracle :=
  ⟨true, true, true, true, false, true, true, true, true,
    fun _ _ _ => (1, 1, fun _ _ => (0, 0, 0))⟩

/-- Concrete request used by the witnesses. -/
def requestDemo : Request := ⟨"https://example.test", 800, 600, none⟩

/-- C3: whenever the browser was launched, every exit path of the handler
invokes `browser.close()` at least once before the call returns or the error
propagates; and for a navigation timeout (goto fails, everything before it
succeeded, and the teardown call itself succeeds) the teardown is invoked
exactly once and the caller receives the generic failure response. -/
theorem C3_teardown (o : Oracle) (req : Request) (hl : o.launchOk = true) :
    1 ≤ (handler o req).1.count Ev.close
    ∧ (o.newPageOk = true → o.viewportOk = true → o.gotoOk = false →
        o.closeCatchOk = true →
        (handler o req).1.count Ev.close = 1 ∧ (handler o req).2 = Res.generic500) := by
  unfold handler
  rw [if_pos hl]
  rcases htb : tryBody o req with _ | ⟨aw, ah, img⟩
  · dsimp only
    constructor
    · decide
    · intro _ _ _ h4
      rw [if_pos h4]
      exact ⟨by decide, rfl⟩
  · dsimp only
    constructor
    · by_cases hct : o.closeTryOk = true
      · rw [if_pos hct]; dsimp only; decide
      · rw [if_neg hct]; dsimp only; decide
    · intro _ _ h3 _
      exfalso
      unfold tryBody at htb
      split at htb
      · rename_i hc
        rw [h3] at hc
        exact Bool.false_ne_true hc.2.2.1
      · exact Option.noConfusion htb

/-- Witness for C3: with the navigation-timeout oracle the handler performs
exactly one teardown and answers with the generic 500. -/
theorem C3_teardown_witness :
    (handler oracleNavTimeout requestDemo).1.count Ev.close = 1
    ∧ (handler oracleNavTimeout requestDemo).2 = Res.generic500 :=
  (C3_teardown oracleNavTimeout requestDemo rfl).2 rfl rfl rfl rfl

/-- C4 fails as stated: `puppeteer.launch` sits before the `try` block, so a
launch failure propagates the raw internal error instead of the generic
fixed-message 500 response. -/
theorem C4_counterexample :
    (handler oracleLaunchFail requestDemo).2 = Res.raw ErrKind.launchFailed
    ∧ (handler oracleLaunchFail requestDemo).2 ≠ Res.generic500 := by
  constructor
  · rfl
  · intro h
    exact Res.noConfusion h

/-- C4 (amended): every failure that occurs after a successful browser
launch, provided the `catch` block's own `browser.close()` succeeds, surfaces
to the caller as the single generic fixed-message 500 — never a raw internal
error; in particular a navigation timeout does. A launch failure (and a
close rejection inside the `catch`) still propagates raw. -/
theorem C4_amended (o : Oracle) (req : Request) (hl : o.launchOk = true)
    (hcc : o.closeCatchOk = true) :
    (∀ e, (handler o req).2 ≠ Res.raw e)
    ∧ (o.newPageOk = true → o.viewportOk = true → o.gotoOk = false →
        (handler o req).2 = Res.generic500) := by
  unfold handler
  rw [if_pos hl]
  rcases htb : tryBody o req with _ | ⟨aw, ah, img⟩
  · dsimp only
    rw [if_pos hcc]
    exact ⟨fun e h => Res.noConfusion h, fun _ _ _ => rfl⟩
  · dsimp only
    constructor
    · intro e
      by_cases hct : o.closeTryOk = true
      · rw [if_pos hct]
        exact fun h => Res.noConfusion h
      · rw [if_neg hct, if_pos hcc]
        exact fun h => Res.noConfusion h
    · intro _ _ h3
      exfalso
      unfold tryBody at htb
      split at htb
      · rename_i hc
        rw [h3] at hc
        exact Bool.false_ne_true hc.2.2.1
      · exact Option.noConfusion htb

/-- Witness for C4 (amended): a screenshot failure does not leak the raw
launch-failure error, and a navigation timeout yields the generic 500. -/
theorem C4_amended_witness :
    (handler oracleShotFail requestDemo).2 ≠ Res.raw ErrKind.launchFailed
    ∧ (handler oracleNavTimeout requestDemo).2 = Res.generic500 :=
  ⟨(C4_amended oracleShotFail requestDemo rfl rfl).1 ErrKind.launchFailed,
    (C4_amended oracleNavTimeout requestDemo rfl rfl).2 rfl rfl rfl⟩

/-- C6 fails in its first conjunct: an empty (but present) `points` array is
truthy in JavaScript, so `points ? createHeatmapOverlay(...) : null` does
produce an overlay for the empty list. -/
theorem C6_counterexample :
    (heatmapOption 4 4 (some ([] : List Point))).isSome = true := rfl

/-- Pixel read after a `drawImage` inside the canvas rect. -/
lemma drawImage_pix (w h : ℤ) (src : Raster) (t : Ctx) (x y : ℤ) (hr : inRect w h x y) :
    (ctxDrawImage w h src t).pix x y = applyOp t.gco (src x y) (t.pix x y) := by
  unfold ctxDrawImage
  exact if_pos hr

/-- Pixel read after a `putImageData` inside the canvas rect. -/
lemma putImageData_pix (w h : ℤ) (d : Raster) (t : Ctx) (x y : ℤ) (hr : inRect w h x y) :
    (ctxPutImageData w h d t).pix x y = d x y := by
  unfold ctxPutImageData
  exact if_pos hr

/-- C6 (amended): when `points` is absent no overlay is produced, and when it
is the empty list the produced overlay is fully transparent; in both cases
the final composited image is pixel-for-pixel identical to the base
screenshot raster. -/
theorem C6_amended (w h : ℤ) (shot : ℤ → ℤ → ℝ × ℝ × ℝ) (pts : Option (List Point))
    (hp : pts = none ∨ pts = some []) (x y : ℤ) (hr : inRect w h x y) :
    finalImage w h shot pts x y = opaqueR (shot x y) := by
  have hbase : (ctxDrawImage w h (fun a b => opaqueR (shot a b)) ctxNew).pix x y
      = opaqueR (shot x y) := by
    rw [drawImage_pix w h _ _ x y hr]
    exact overPix_opaque_over_blank _ rfl
  rcases hp with rfl | rfl
  · exact hbase
  · have hinner : (ctxPutImageData w h (imageDataOf w h [])
        (ctxSetGCO Op.lighter (ctxFillRect w h blackPix ctxNew))).pix x y
        = blankPix := by
      rw [putImageData_pix w h _ _ x y hr]
      unfold imageDataOf
      rw [if_pos hr, show accumulate w h ([] : List Point) x y = 0 from rfl]
      unfold colorizePixel blankPix
      norm_num
    have hov : createHeatmapOverlay w h [] x y = blankPix := by
      unfold createHeatmapOverlay
      rw [drawImage_pix w h _ _ x y hr]
      show overPix ((ctxPutImageData w h (imageDataOf w h [])
          (ctxSetGCO Op.lighter (ctxFillRect w h blackPix ctxNew))).pix x y) blankPix
        = blankPix
      rw [hinner]
      exact overPix_blank_blank
    show (ctxDrawImage w h (createHeatmapOverlay w h [])
        (ctxDrawImage w h (fun a b => opaqueR (shot a b)) ctxNew)).pix x y
      = opaqueR (shot x y)
    rw [drawImage_pix w h _ _ x y hr]
    show overPix (createHeatmapOverlay w h [] x y)
        ((ctxDrawImage w h (fun a b => opaqueR (shot a b)) ctxNew).pix x y)
      = opaqueR (shot x y)
    rw [hov, hbase]
    exact overPix_transparent_over_opaque _ _ rfl rfl

/-- Witness for C6 (amended): on a 2x2 raster with constant screenshot colour
`(7, 8, 9)`, both an absent and an empty point list leave the composited
pixel `(0,0)` equal to the opaque screenshot pixel. -/
theorem C6_amended_witness :
    finalImage 2 2 (fun _ _ => (7, 8, 9)) (some ([] : List Point)) 0 0 = opaqueR (7, 8, 9)
    ∧ finalImage 2 2 (fun _ _ => (7, 8, 9)) none 0 0 = opaqueR (7, 8, 9) :=
  ⟨C6_amended 2 2 (fun _ _ => (7, 8, 9)) (some []) (Or.inr rfl) 0 0
      (by unfold inRect; norm_num),
    C6_amended 2 2 (fun _ _ => (7, 8, 9)) none (Or.inl rfl) 0 0
      (by unfold inRect; norm_num)⟩

/-- C10: the request's `height` field is parsed but never used — the viewport
is set with height 0 and the capture is full-page — so two valid requests
differing only in `height` produce identical handler outcomes (same events,
same response) under any environment. -/
theorem C10_height_unused (o : Oracle) (r1 r2 : Request) (hu : r1.url = r2.url)
    (hw : r1.width = r2.width) (hp : r1.points = r2.points) :
    handler o r1 = handler o r2 := by
  obtain ⟨u1, w1, h1, p1⟩ := r1
  obtain ⟨u2, w2, h2, p2⟩ := r2
  dsimp only at hu hw hp
  subst hu
  subst hw
  subst hp
  rfl

/-- Witness for C10: requested heights 600 and 601 give identical outcomes. -/
theorem C10_height_unused_witness :
    handler oracleNavTimeout ⟨"https://example.test", 800, 600, none⟩
      = handler oracleNavTimeout ⟨"https://example.test", 800, 601, none⟩ :=
  C10_height_unused oracleNavTimeout
    ⟨"https://example.test", 800, 600, none⟩
    ⟨"https://example.test", 800, 601, none⟩ rfl rfl rfl

end GazeHeatmap
